import Mathlib

/-!
Verification development for the marble-shooter simulation core
(GameCanvas game loop and `utils/math` path helpers).

The embedding translates the source's game-logic functions into Lean over
exact rational arithmetic (`ℚ` for JavaScript numbers).  Cosmetic side
effects of the source (particle bursts, floating texts, sounds, screen
shake) do not touch the marble store, score, credits, combo streak or the
returned booleans, and are omitted.  Random identifiers generated by the
source (`Math.random().toString(36)`) are taken as explicit parameters.
-/

namespace NeonCircuit

/-- Marble kinds, from the `MarbleType` enum in `types`. -/
inductive MarbleType where
  | NORMAL
  | WILDCARD
  | BOMB
  | ICE
  | COIN
deriving DecidableEq, Inhabited

/-- Marble colors form a finite palette (`MarbleColor` enum); only equality
of colors is ever used by the game logic, so colors are embedded as `Nat`. -/
abbrev MarbleColor := Nat

/-- A marble on the path, from the `Marble` interface in `types`.
`offset` is the distance along the path from the spawn end. -/
structure Marble where
  id : Nat
  color : MarbleColor
  type : MarbleType
  offset : ℚ
  speed : ℚ
  backwards : Bool
deriving DecidableEq, Inhabited

/-- A 2D point, from the `Point` interface in `types`. -/
structure Point where
  x : ℚ
  y : ℚ
deriving DecidableEq, Inhabited

/-- `MARBLE_RADIUS` from `constants`. -/
def MARBLE_RADIUS : ℚ := 13

/-- `CREDITS_PER_MARBLE` from `constants`. -/
def CREDITS_PER_MARBLE : ℚ := 10

/-- `CREDITS_PER_COMBO` from `constants`. -/
def CREDITS_PER_COMBO : ℚ := 50

/-! ### Path sampling (`utils/math.ts`, `getPointAtDistance`) -/

/-- `getPointAtDistance` from `utils/math.ts`: maps a path offset to a
screen point by linear index lookup and interpolation within the
bracketing segment, clamped at both ends. -/
def getPointAtDistance (distance : ℚ) (points : List Point) (totalLength : ℚ) : Point :=
  if distance ≤ 0 then points.headD ⟨0, 0⟩
  else if totalLength ≤ distance then points.getLastD ⟨0, 0⟩
  else
    let n : ℤ := points.length
    let idx : ℤ := ⌊distance / totalLength * ((n : ℚ) - 1)⌋
    let safeIdx : ℤ := max 0 (min idx (n - 2))
    let p1 := points.getD safeIdx.toNat ⟨0, 0⟩
    let p2 := points.getD (safeIdx.toNat + 1) ⟨0, 0⟩
    let segmentLen := totalLength / ((n : ℚ) - 1)
    let distAtP1 := (safeIdx : ℚ) * segmentLen
    let ratio := (distance - distAtP1) / segmentLen
    ⟨p1.x + (p2.x - p1.x) * ratio, p1.y + (p2.y - p1.y) * ratio⟩

/-! ### Spawn-type roll (`animate`, spawning section) -/

/-- The spawn-type roll of the spawning section of `animate`:
`baseChance = 0.02 + luckFactor`; `rnd < baseChance` gives WILDCARD,
otherwise `rnd < baseChance * 2` gives BOMB, otherwise NORMAL. -/
def spawnType (rnd luckFactor : ℚ) : MarbleType :=
  let baseChance : ℚ := 2/100 + luckFactor
  if rnd < baseChance then MarbleType.WILDCARD
  else if rnd < baseChance * 2 then MarbleType.BOMB
  else MarbleType.NORMAL

/-! ### Resize rescaling (`resize` inside the level-initialization effect) -/

/-- The offset-rescaling block of `resize`: when both the old and the new
path length are positive and marbles exist, every marble offset is
multiplied by `newLength / oldLength`. -/
def rescaleOffsets (oldLength newLength : ℚ) (marbles : List Marble) : List Marble :=
  if 0 < oldLength ∧ 0 < newLength ∧ 0 < marbles.length then
    marbles.map fun m => { m with offset := m.offset * (newLength / oldLength) }
  else marbles

/-! ### Chain partition and per-chain velocities (`animate`, physics section)

The physics section first sorts the marble store descending by offset;
the definitions below operate on that sorted store.  `partitionChains`
mirrors the chain-building walk, and `moveChains` mirrors the velocity
loop `for (let i = chains.length - 1; i >= 0; i--)`: chains are processed
from the last (farthest from the core) to the first, so that a chain's
gap computation reads the already-moved chain behind it, exactly as the
in-place mutation in the source does. -/

/-- Tuning parameters and timers read by the physics section of `animate`. -/
structure PhysParams where
  speedMultiplier : ℚ
  reverseForceMultiplier : ℚ
  frameCount : Nat
  slowMoTimer : Nat
  reverseTimer : Nat
deriving DecidableEq

/-- `timeScale = slowMoTimer > 0 ? 0.3 : 1.0`. -/
def timeScale (p : PhysParams) : ℚ :=
  if 0 < p.slowMoTimer then 3/10 else 1

/-- `speedFactor = Math.min(1 + timeInSeconds * 0.001, 2.0)` where
`timeInSeconds = frameCount / 60`; the ramp factor of the base speed. -/
def rampFactor (p : PhysParams) : ℚ :=
  min (1 + ((p.frameCount : ℚ) / 60) * (1/1000)) 2

/-- `baseSpeed = 0.6 * levelConfig.speedMultiplier * speedFactor * timeScale`. -/
def baseSpeed (p : PhysParams) : ℚ :=
  6/10 * p.speedMultiplier * rampFactor p * timeScale p

/-- `reverseSpeedMax = -6.0 * reverseForceMultiplier * timeScale`. -/
def reverseSpeedMax (p : PhysParams) : ℚ :=
  -6 * p.reverseForceMultiplier * timeScale p

/-- `forcedReverseSpeed = -3.0 * reverseForceMultiplier * timeScale`. -/
def forcedReverseSpeed (p : PhysParams) : ℚ :=
  -3 * p.reverseForceMultiplier * timeScale p

/-- Inner walk of the chain partition: `prev` is the previous marble of the
sorted store; a gap greater than `MARBLE_RADIUS * 2 + 3.0` starts a new
chain, otherwise the marble joins the current chain (held reversed in
`acc`). -/
def partitionAux (prev : Marble) (acc : List Marble) : List Marble → List (List Marble)
  | [] => [acc.reverse]
  | m :: rest =>
    if prev.offset - m.offset ≤ MARBLE_RADIUS * 2 + 3 then
      partitionAux m (m :: acc) rest
    else
      acc.reverse :: partitionAux m [m] rest

/-- Chain partition of the descending-sorted marble store (`animate`,
"Physics & Chains"): chain 0 holds the largest offsets, i.e. the marbles
closest to the core. -/
def partitionChains : List Marble → List (List Marble)
  | [] => []
  | m :: rest => partitionAux m [m] rest

/-- The per-marble update at the end of the velocity loop:
`m.speed = chainVelocity; m.backwards = chainVelocity < 0;
m.offset += m.speed`. -/
def applyChainVelocity (chain : List Marble) (v : ℚ) : List Marble :=
  chain.map fun m => { m with speed := v, backwards := decide (v < 0), offset := m.offset + v }

/-- The velocity loop of `animate` over the chain partition, processed
from the last chain (farthest from the core) backward.  The last chain
gets `baseSpeed` (or the forced reverse speed while the reverse timer is
active); any other chain reads the head of the already-moved chain behind
it and either closes a color-matching gap (clamped pull-back) or holds
position. -/
def moveChains (p : PhysParams) : List (List Marble) → List (List Marble)
  | [] => []
  | [c] =>
    [applyChainVelocity c (if 0 < p.reverseTimer then forcedReverseSpeed p else baseSpeed p)]
  | c :: b :: rest =>
    let moved := moveChains p (b :: rest)
    let v : ℚ :=
      if 0 < p.reverseTimer then forcedReverseSpeed p
      else
        match moved.head? with
        | some behind =>
          let myTail := c.getLastD default
          let behindHead := behind.headD default
          let colorMatches := myTail.color == behindHead.color
            || myTail.type == MarbleType.WILDCARD
            || behindHead.type == MarbleType.WILDCARD
          if colorMatches then
            let gapSize := myTail.offset - behindHead.offset - MARBLE_RADIUS * 2
            if 1/2 < gapSize then min 0 (max (reverseSpeedMax p) (-gapSize)) else 0
          else 0
        | none => 0
    applyChainVelocity c v :: moved

/-! ### Overlap resolution (`animate`, collision solver)

The source iterates `for (let i = marbles.length - 1; i > 0; i--)` and
fixes `ahead = marbles[i-1]` against `behind = marbles[i]`; since the loop
descends, each marble is fixed against the already-fixed marble behind it.
The recursion below resolves the tail first and then fixes the head
against the resolved tail's head, which is the same order.  The
`comboCheckNeededIndex` bookkeeping of the source does not modify any
marble and is not needed by the properties below. -/

/-- The overlap-resolution pass of `animate`: whenever
`ahead.offset - behind.offset < MARBLE_RADIUS * 2`, the `ahead` marble
(the larger offset, nearer the core) is snapped to
`behind.offset + MARBLE_RADIUS * 2` and inherits `behind.speed` when the
latter is larger. -/
def resolveOverlaps : List Marble → List Marble
  | [] => []
  | [m] => [m]
  | m :: n :: rest =>
    let rest2 := resolveOverlaps (n :: rest)
    match rest2.head? with
    | none => [m]
    | some b =>
      if m.offset - b.offset < MARBLE_RADIUS * 2 then
        { m with offset := b.offset + MARBLE_RADIUS * 2,
                 speed := if m.speed < b.speed then b.speed else m.speed } :: rest2
      else
        m :: rest2

/-! ### Match engine (`handleMatches`, `explodeArea`, `explodeBomb`)

The engine reads the marble store together with the score, credit and
combo-streak cells; path data and the upgrade-derived multipliers are
read-only configuration. -/

/-- Read-only data used by the match engine: the current path and the
upgrade-derived multipliers of the component. -/
structure EngineConfig where
  pathPoints : List Point
  pathLength : ℚ
  scoreMultiplier : ℚ
  blastRadiusMultiplier : ℚ
deriving DecidableEq

/-- The mutable cells of the component touched by the match engine:
`marblesRef`, `scoreRef`, `creditsRef`, `comboStreakRef`. -/
structure EngineState where
  marbles : List Marble
  score : ℤ
  credits : ℤ
  comboStreak : Nat
deriving DecidableEq

/-- `explodeArea`: destroys every marble whose path point lies within
`radius` of `(x, y)`.  The source compares the Euclidean distance
(`Math.sqrt`) with `radius`; for the nonnegative radii the game passes
this is equivalent to the squared comparison used here, which is exact
over `ℚ`.  Collecting indices and splicing them in descending order, as
the source does, is the same as filtering. -/
def explodeArea (cfg : EngineConfig) (st : EngineState) (x y radius : ℚ) : EngineState :=
  { st with marbles := st.marbles.filter fun target =>
      let tPoint := getPointAtDistance target.offset cfg.pathPoints cfg.pathLength
      !decide ((x - tPoint.x)^2 + (y - tPoint.y)^2 < radius^2) }

/-- `explodeBomb`: area explosion of radius `100 * blastRadiusMultiplier`
around the bomb's path point, then removal of the bomb itself if it is
still in the store (`indexOf` / `splice` in the source; the bomb is
normally already destroyed by its own area explosion, making the
`indexOf` check a no-op, which `List.erase` also models). -/
def explodeBomb (cfg : EngineConfig) (st : EngineState) (bombMarble : Marble) : EngineState :=
  let p := getPointAtDistance bombMarble.offset cfg.pathPoints cfg.pathLength
  let st2 := explodeArea cfg st p.x p.y (100 * cfg.blastRadiusMultiplier)
  { st2 with marbles := st2.marbles.erase bombMarble }

/-- The neighbor test of the run expansion in `handleMatches`: the
neighbor matches when its color equals the pivot color, or either marble
is a WILDCARD. -/
def isMatchWith (pivotColor : MarbleColor) (pivotType : MarbleType) (m : Marble) : Bool :=
  m.color == pivotColor || m.type == MarbleType.WILDCARD || pivotType == MarbleType.WILDCARD

/-- The `while (start > 0)` loop of `handleMatches`: walk left from the
pivot while the previous marble matches. -/
def expandLeft (marbles : List Marble) (pivotColor : MarbleColor) (pivotType : MarbleType) :
    Nat → Nat
  | 0 => 0
  | s + 1 =>
    if isMatchWith pivotColor pivotType (marbles.getD s default) then
      expandLeft marbles pivotColor pivotType s
    else s + 1

/-- The `while (end < marbles.length - 1)` loop of `handleMatches`, with
the iteration count bounded by an explicit fuel: each iteration advances
`e` by one and the loop stops before `marbles.length - 1`, so the
`marbles.length` fuel supplied by `expandRight` is never exhausted. -/
def expandRightGo (marbles : List Marble) (pivotColor : MarbleColor) (pivotType : MarbleType) :
    Nat → Nat → Nat
  | 0, e => e
  | fuel + 1, e =>
    if e + 1 < marbles.length then
      if isMatchWith pivotColor pivotType (marbles.getD (e + 1) default) then
        expandRightGo marbles pivotColor pivotType fuel (e + 1)
      else e
    else e

/-- The `while (end < marbles.length - 1)` loop of `handleMatches`: walk
right from the pivot while the next marble matches. -/
def expandRight (marbles : List Marble) (pivotColor : MarbleColor) (pivotType : MarbleType)
    (e : Nat) : Nat :=
  expandRightGo marbles pivotColor pivotType marbles.length e

/-- Length of the maximal contiguous matching run around the pivot at
index `j`, as computed by the two expansion loops of `handleMatches`
(`count = end - start + 1`). -/
def matchRun (marbles : List Marble) (j : Nat) : Nat :=
  let pivotMarble := marbles.getD j default
  expandRight marbles pivotMarble.color pivotMarble.type j
    - expandLeft marbles pivotMarble.color pivotMarble.type j + 1

/-- `handleMatches(idx, isCombo)`: out-of-range pivots are rejected; a
BOMB pivot explodes immediately; otherwise the run around the pivot is
expanded, and a run of three or more is removed (or, if it contains a
BOMB, that bomb explodes instead), with score and credits updated. -/
def handleMatches (cfg : EngineConfig) (st : EngineState) (idx : ℤ) (isCombo : Bool) :
    EngineState × Bool :=
  let marbles := st.marbles
  if idx < 0 ∨ (marbles.length : ℤ) ≤ idx then (st, false)
  else
    let j := idx.toNat
    let pivotMarble := marbles.getD j default
    let pivotColor := pivotMarble.color
    if pivotMarble.type == MarbleType.BOMB then
      (explodeBomb cfg st pivotMarble, true)
    else
      let start := expandLeft marbles pivotColor pivotMarble.type j
      let stop := expandRight marbles pivotColor pivotMarble.type j
      let count := stop - start + 1
      if 3 ≤ count then
        match (List.range' start count).find?
            (fun k => (marbles.getD k default).type == MarbleType.BOMB) with
        | some k => (explodeBomb cfg st (marbles.getD k default), true)
        | none =>
          let points0 : ℚ := (count : ℚ) * 100 * cfg.scoreMultiplier
          let earned0 : ℚ := (count : ℚ) * CREDITS_PER_MARBLE
          let points1 : ℚ := if isCombo then points0 * (3/2) else points0
          let earnedCredits : ℚ := if isCombo then earned0 + CREDITS_PER_COMBO else earned0
          let points : ℚ :=
            if 1 < st.comboStreak then points1 * (1 + (st.comboStreak : ℚ) * (1/10)) else points1
          ({ st with
              score := st.score + ⌊points⌋,
              credits := st.credits + ⌊earnedCredits * cfg.scoreMultiplier⌋,
              marbles := marbles.take start ++ marbles.drop (start + count) },
           true)
      else (st, false)

/-! ### Projectile sub-step (`animate`, "Projectiles (CCD)")

The source splits each projectile's frame movement into sub-steps of at
most `0.8` marble diameters (the step count divides the speed obtained
with `Math.sqrt`; the per-sub-step displacement is therefore taken here
as an explicit pair `(stepVx, stepVy)`).  Each sub-step moves the
projectile, checks the play-area bounds, and scans the marble store for
the first hit using the exact squared-distance comparison of the
source. -/

/-- A player shot, from the `Projectile` interface in `types`. -/
structure Projectile where
  x : ℚ
  y : ℚ
  vx : ℚ
  vy : ℚ
  color : MarbleColor
  isEmp : Bool
deriving DecidableEq

/-- `hitDistSq = (MARBLE_RADIUS * 1.8) ** 2`. -/
def hitDistSq : ℚ := (MARBLE_RADIUS * (9/5))^2

/-- The out-of-bounds test of the projectile sub-step:
`p.x < -50 || p.x > logicalWidth + 50 || p.y < -50 || p.y > logicalHeight + 50`. -/
def projOutOfBounds (x y logicalWidth logicalHeight : ℚ) : Bool :=
  decide (x < -50) || decide (logicalWidth + 50 < x)
    || decide (y < -50) || decide (logicalHeight + 50 < y)

/-- The inner marble scan of the projectile sub-step: index of the first
marble whose path point is within the hit distance of `(x, y)`. -/
def findHitIdx (cfg : EngineConfig) (marbles : List Marble) (x y : ℚ) : Option Nat :=
  marbles.findIdx? fun m =>
    let mPoint := getPointAtDistance m.offset cfg.pathPoints cfg.pathLength
    decide ((x - mPoint.x)^2 + (y - mPoint.y)^2 < hitDistSq)

/-- The marble inserted behind a struck marble: a NORMAL marble of the
projectile's color at `struckOffset - MARBLE_RADIUS * 2` (the random
string id of the source is an explicit parameter). -/
def shotMarble (newId : Nat) (color : MarbleColor) (struckOffset : ℚ) : Marble :=
  { id := newId, color := color, type := MarbleType.NORMAL,
    offset := struckOffset - MARBLE_RADIUS * 2, speed := 0, backwards := false }

/-- The push loop after insertion
(`while (currIdx < marbles.length - 1) ...`): walking forward from the
insertion point, each next marble that violates the minimum separation is
pushed back to `current.offset - MARBLE_RADIUS * 2`; each comparison
reads the already-pushed current marble. -/
def pushLoop : List Marble → List Marble
  | [] => []
  | [m] => [m]
  | c :: n :: rest =>
    let n2 := if c.offset - n.offset < MARBLE_RADIUS * 2 then
        { n with offset := c.offset - MARBLE_RADIUS * 2 } else n
    c :: pushLoop (n2 :: rest)
termination_by l => l.length

/-- Insertion of the new marble at `mIdx + 1` (`splice(mIdx + 1, 0, ...)`)
followed by the push loop starting at `currIdx = mIdx + 1`. -/
def insertAndPush (marbles : List Marble) (mIdx : Nat) (newMarble : Marble) : List Marble :=
  marbles.take (mIdx + 1) ++ pushLoop (newMarble :: marbles.drop (mIdx + 1))

/-- One CCD sub-step of a projectile: move by `(stepVx, stepVy)`; if out
of bounds, the projectile is dropped and the combo streak reset; on the
first marble hit, dispatch on BOMB / EMP / normal insertion followed by
`handleMatches(mIdx + 1, false)`, incrementing the streak on a match and
resetting it otherwise.  Returns the new state and `some p` when the
projectile keeps flying. -/
def projectileSubStep (cfg : EngineConfig) (logicalWidth logicalHeight : ℚ)
    (st : EngineState) (p : Projectile) (stepVx stepVy : ℚ) (newId : Nat) :
    EngineState × Option Projectile :=
  let p2 : Projectile := { p with x := p.x + stepVx, y := p.y + stepVy }
  if projOutOfBounds p2.x p2.y logicalWidth logicalHeight then
    ({ st with comboStreak := 0 }, none)
  else
    match findHitIdx cfg st.marbles p2.x p2.y with
    | none => (st, some p2)
    | some mIdx =>
      let m := st.marbles.getD mIdx default
      if m.type == MarbleType.BOMB then
        (explodeBomb cfg st m, none)
      else if p2.isEmp then
        (explodeArea cfg st p2.x p2.y (150 * cfg.blastRadiusMultiplier), none)
      else
        let st2 := { st with marbles := insertAndPush st.marbles mIdx (shotMarble newId p2.color m.offset) }
        let res := handleMatches cfg st2 ((mIdx : ℤ) + 1) false
        if res.2 then
          ({ res.1 with comboStreak := res.1.comboStreak + 1 }, none)
        else
          ({ res.1 with comboStreak := 0 }, none)

/-! ### Win and loss signals (`animate`, spawning and game-over checks) -/

/-- A decorative particle, from the `Particle` interface in `types`; only
the emptiness of the particle store matters to the win check. -/
structure Particle where
  x : ℚ
  y : ℚ
  vx : ℚ
  vy : ℚ
  life : ℚ
deriving DecidableEq

/-- The win branch of the spawning section: when the spawn quota is no
longer below `spawnCount` and both the marble and the particle store are
empty, `onGameOver(score, true)` fires. -/
def winSignal (spawnCount marblesSpawned : Nat) (marbles : List Marble)
    (particles : List Particle) (score : ℤ) : Option (ℤ × Bool) :=
  if ¬ marblesSpawned < spawnCount ∧ marbles = [] ∧ particles = [] then
    some (score, true)
  else none

/-- The game-over check after the collision solver: when the store is
nonempty and the head marble (largest offset, nearest the core) has
reached the path length, `onGameOver(score, false)` fires. -/
def lossSignal (marbles : List Marble) (pathLength : ℚ) (score : ℤ) : Option (ℤ × Bool) :=
  match marbles.head? with
  | some headMarble =>
    if pathLength ≤ headMarble.offset then some (score, false) else none
  | none => none

/-! ### Path generation resampling (`utils/math.ts`, `generatePathPoints`)

`generatePathPoints` computes raw segment lengths with the Euclidean
`getDistance` (which uses `Math.sqrt`, irrational in general), then
resamples the polyline at uniform arclength intervals with a nested
`while` loop.  The distance function is kept abstract here (any
`dist : Point → Point → ℚ`); the only fact the theorems below use is
`dist p p = 0`, which the Euclidean distance satisfies exactly.  The
source's `while (targetD <= accumulatedDist + len)` loop has no
termination guarantee when `targetStep = 0`, so it is embedded with an
explicit fuel counter: a `none` result means the loop was still running
when the fuel ran out. -/

/-- The `segmentLengths` array of `generatePathPoints`: distances of
consecutive raw points. -/
def segmentLengthsOf (dist : Point → Point → ℚ) : List Point → List ℚ
  | p :: q :: rest => dist p q :: segmentLengthsOf dist (q :: rest)
  | _ => []

/-- The inner `while (targetD <= accumulatedDist + len)` loop of
`generatePathPoints` for one raw segment, with fuel.  In the source,
`t = (targetD - accumulatedDist) / len` is a JavaScript division (`0/0`
gives `NaN`); over `ℚ` the value pushed for a zero-length segment is the
segment start instead, which none of the theorems below depend on. -/
def resampleSegment (p1 p2 : Point) (len targetStep : ℚ) :
    Nat → ℚ → ℚ → List Point → Option (List Point × ℚ)
  | 0, _, _, _ => none
  | fuel + 1, accDist, targetD, acc =>
    if targetD ≤ accDist + len then
      let t := (targetD - accDist) / len
      let pt : Point := ⟨p1.x + (p2.x - p1.x) * t, p1.y + (p2.y - p1.y) * t⟩
      resampleSegment p1 p2 len targetStep fuel accDist (targetD + targetStep) (pt :: acc)
    else some (acc, targetD)

/-- The outer `for` loop of `generatePathPoints` over the raw segments,
threading `accumulatedDist` and `targetD`; `acc` holds the produced
points in reverse. -/
def resampleLoop (dist : Point → Point → ℚ) (targetStep : ℚ) (fuel : Nat) :
    ℚ → ℚ → List Point → List Point → Option (List Point)
  | accDist, targetD, acc, p :: q :: rest =>
    let len := dist p q
    match resampleSegment p q len targetStep fuel accDist targetD acc with
    | none => none
    | some (acc2, targetD2) =>
      resampleLoop dist targetStep fuel (accDist + len) targetD2 acc2 (q :: rest)
  | _, _, acc, _ => some acc

/-- `generatePathPoints` given the raw parametric points: compute segment
lengths and the total length, resample at `totalLength / steps`
intervals, and append the last raw point.  `none` means the resampling
loop did not finish within the given fuel. -/
def generatePathPointsFueled (dist : Point → Point → ℚ) (rawPoints : List Point)
    (steps : Nat) (fuel : Nat) : Option (List Point) :=
  let segmentLengths := segmentLengthsOf dist rawPoints
  let totalLength := segmentLengths.sum
  let targetStep := totalLength / (steps : ℚ)
  match rawPoints with
  | [] => some []
  | p0 :: _ =>
    match resampleLoop dist targetStep fuel 0 targetStep [p0] rawPoints with
    | none => none
    | some acc => some ((rawPoints.getLastD p0 :: acc).reverse)

/-! ## Theorems for the specification claims -/

/-- C4, counterexample: with `basePercent = 0.02` and no luck bonus, a
deterministic draw of exactly `0.021` yields a BOMB marble, not the
NORMAL marble the claim states (`0.021` lies in the BOMB band
`[0.02, 0.04)`). -/
theorem C4_boundary_cex :
    spawnType (21/1000) 0 = MarbleType.BOMB ∧ spawnType (21/1000) 0 ≠ MarbleType.NORMAL := by
  have h : spawnType (21/1000) 0 = MarbleType.BOMB := by norm_num [spawnType]
  exact ⟨h, by rw [h]; decide⟩

/-- C4, amended: with `basePercent = 0.02` and luck bonus `0`, the roll
maps `r = 0.019` to WILDCARD and both `r = 0.021` and `r = 0.039` to
BOMB (NORMAL only starts at `r ≥ 0.04`). -/
theorem C4_roll_boundaries :
    spawnType (19/1000) 0 = MarbleType.WILDCARD ∧
    spawnType (21/1000) 0 = MarbleType.BOMB ∧
    spawnType (39/1000) 0 = MarbleType.BOMB :=
  ⟨by norm_num [spawnType], by norm_num [spawnType], by norm_num [spawnType]⟩

/-- C5: with the spawner invariant `marblesSpawned ≤ spawnCount`, the win
signal carrying the current score fires exactly when the spawn quota is
reached and both the marble and the particle store are empty, and the
loss signal carrying the current score fires exactly when the core-most
(head) marble's offset reaches or exceeds the total path length. -/
theorem C5_win_loss_signals (spawnCount marblesSpawned : Nat) (marbles : List Marble)
    (particles : List Particle) (score : ℤ) (pathLength : ℚ)
    (hquota : marblesSpawned ≤ spawnCount) :
    (winSignal spawnCount marblesSpawned marbles particles score = some (score, true) ↔
      marblesSpawned = spawnCount ∧ marbles = [] ∧ particles = []) ∧
    (lossSignal marbles pathLength score = some (score, false) ↔
      ∃ hm, marbles.head? = some hm ∧ pathLength ≤ hm.offset) := by
  constructor
  · rw [winSignal]
    split_ifs with h
    · exact iff_of_true rfl ⟨by omega, h.2.1, h.2.2⟩
    · exact iff_of_false (by simp) fun hc => h ⟨by omega, hc.2.1, hc.2.2⟩
  · rw [lossSignal]
    cases hm : marbles.head? with
    | none => simp [hm]
    | some hd =>
      dsimp only
      split_ifs with hcond
      · exact iff_of_true rfl ⟨hd, rfl, hcond⟩
      · refine iff_of_false (by simp) fun hc => ?_
        obtain ⟨x, hx, hoff⟩ := hc
        exact hcond (by cases hx; exact hoff)

/-- Witness for C5 at concrete states: a finished quota with empty stores
signals WIN with the current score, and a head marble at the full path
length signals LOSS with the current score. -/
theorem C5_witness :
    winSignal 5 5 [] [] 7 = some (7, true) ∧
    lossSignal [⟨0, 0, MarbleType.NORMAL, 100, 0, false⟩] 100 7 = some (7, false) := by
  constructor
  · exact (C5_win_loss_signals 5 5 [] [] 7 0 (le_refl 5)).1.mpr ⟨rfl, rfl, rfl⟩
  · exact (C5_win_loss_signals 5 5 [⟨0, 0, MarbleType.NORMAL, 100, 0, false⟩] [] 7 100
      (le_refl 5)).2.mpr ⟨⟨0, 0, MarbleType.NORMAL, 100, 0, false⟩, rfl, by norm_num⟩

/-- C6: a resize from positive length `L1` to positive length `L2` with a
non-empty store maps every marble to the same marble with its offset
multiplied by exactly `L2 / L1`; all other fields are unchanged. -/
theorem C6_resize_rescales_offsets (L1 L2 : ℚ) (ms : List Marble)
    (h1 : 0 < L1) (h2 : 0 < L2) (hne : ms ≠ []) (i : Nat) :
    (rescaleOffsets L1 L2 ms)[i]? =
      (ms[i]?).map fun m => { m with offset := m.offset * (L2 / L1) } := by
  rw [rescaleOffsets, if_pos ⟨h1, h2, by simpa [List.length_pos] using hne⟩,
    List.getElem?_map]

/-- Witness for C6: a marble at offset 10 under a resize from length 2 to
length 3 ends at offset 15 with every other field unchanged. -/
theorem C6_witness :
    (rescaleOffsets 2 3 [⟨4, 3, MarbleType.NORMAL, 10, 0, false⟩])[0]? =
      some ⟨4, 3, MarbleType.NORMAL, 15, 0, false⟩ := by
  rw [C6_resize_rescales_offsets 2 3 _ (by norm_num) (by norm_num) (by simp) 0]
  norm_num

/-- C7: for a polyline of at least two points and positive total length,
`getPointAtDistance` returns the first point for every offset at most 0
and the last point for every offset at least the total length. -/
theorem C7_pointAtDistance_clamped (points : List Point) (totalLength : ℚ)
    (hlen : 2 ≤ points.length) (hpos : 0 < totalLength) (offset : ℚ) (p : Point) :
    (offset ≤ 0 → points.head? = some p → getPointAtDistance offset points totalLength = p) ∧
    (totalLength ≤ offset → points.getLast? = some p →
      getPointAtDistance offset points totalLength = p) := by
  constructor
  · intro h0 hh
    rw [getPointAtDistance, if_pos h0]
    cases points with
    | nil => simp at hh
    | cons a t => simp [List.head?] at hh; simp [List.headD, hh]
  · intro hL hlast
    have h0 : ¬ offset ≤ 0 := by
      intro hc
      exact absurd (le_trans hL hc) (not_le.mpr hpos)
    rw [getPointAtDistance, if_neg h0, if_pos hL, List.getLastD_eq_getLast?, hlast]
    rfl

/-- Witness for C7 on a concrete two-point path of length 10: an offset
of -1 returns the first point and an offset of 11 returns the last. -/
theorem C7_witness :
    getPointAtDistance (-1) [⟨1, 2⟩, ⟨3, 4⟩] 10 = ⟨1, 2⟩ ∧
    getPointAtDistance 11 [⟨1, 2⟩, ⟨3, 4⟩] 10 = ⟨3, 4⟩ := by
  constructor
  · exact (C7_pointAtDistance_clamped [⟨1, 2⟩, ⟨3, 4⟩] 10 (by norm_num) (by norm_num)
      (-1) ⟨1, 2⟩).1 (by norm_num) rfl
  · exact (C7_pointAtDistance_clamped [⟨1, 2⟩, ⟨3, 4⟩] 10 (by norm_num) (by norm_num)
      11 ⟨3, 4⟩).2 (by norm_num) rfl

/-- C10: `handleMatches` called with a pivot index below 0 or beyond the
store length returns `false` and leaves the whole engine state — marble
store, score, credits and combo streak — unchanged. -/
theorem C10_handleMatches_out_of_range (cfg : EngineConfig) (st : EngineState) (idx : ℤ)
    (isCombo : Bool) (h : idx < 0 ∨ (st.marbles.length : ℤ) ≤ idx) :
    handleMatches cfg st idx isCombo = (st, false) := by
  rw [handleMatches]
  exact if_pos h

/-- Witness for C10 on a one-marble store: the indices -1 and 2 are both
rejected without any state change. -/
theorem C10_witness :
    handleMatches ⟨[⟨0, 0⟩, ⟨9, 0⟩], 9, 1, 1⟩
      ⟨[⟨0, 1, MarbleType.NORMAL, 4, 0, false⟩], 3, 2, 1⟩ (-1) true =
      (⟨[⟨0, 1, MarbleType.NORMAL, 4, 0, false⟩], 3, 2, 1⟩, false) ∧
    handleMatches ⟨[⟨0, 0⟩, ⟨9, 0⟩], 9, 1, 1⟩
      ⟨[⟨0, 1, MarbleType.NORMAL, 4, 0, false⟩], 3, 2, 1⟩ 2 false =
      (⟨[⟨0, 1, MarbleType.NORMAL, 4, 0, false⟩], 3, 2, 1⟩, false) :=
  ⟨C10_handleMatches_out_of_range _ _ _ _ (Or.inl (by norm_num)),
   C10_handleMatches_out_of_range _ _ _ _ (Or.inr (by norm_num))⟩

/-! ## Chain-velocity claims (C1) -/

/-- The chain-partition walk never produces an empty partition. -/
theorem partitionAux_ne_nil : ∀ (rest : List Marble) (prev : Marble) (acc : List Marble),
    partitionAux prev acc rest ≠ []
  | [], _, _ => by simp [partitionAux]
  | m :: rest, prev, acc => by
    rw [partitionAux]
    split_ifs
    · exact partitionAux_ne_nil rest m (m :: acc)
    · simp

/-- `moveChains` sends a non-empty chain list to a non-empty chain list. -/
theorem moveChains_ne_nil (p : PhysParams) : ∀ cs : List (List Marble), cs ≠ [] →
    moveChains p cs ≠ []
  | [], h => absurd rfl h
  | [c], _ => by simp [moveChains]
  | c :: b :: rest, _ => by rw [moveChains]; simp

/-- With the reverse timer inactive, the velocity loop assigns the base
speed to the last chain: the last chain of the moved partition is the
last input chain moved by `baseSpeed`. -/
theorem moveChains_getLast? (p : PhysParams) (hrev : p.reverseTimer = 0) :
    ∀ (cs : List (List Marble)) (c : List Marble), cs.getLast? = some c →
      (moveChains p cs).getLast? = some (applyChainVelocity c (baseSpeed p))
  | [], c => by simp
  | [c0], c => by
    intro hlast
    have hc : c0 = c := by simpa using hlast
    subst hc
    simp [moveChains, hrev]
  | c0 :: c1 :: rest, c => by
    intro hlast
    have hlast' : (c1 :: rest).getLast? = some c := by
      rw [← List.getLast?_cons_cons]; exact hlast
    have ih := moveChains_getLast? p hrev (c1 :: rest) c hlast'
    have hne := moveChains_ne_nil p (c1 :: rest) (by simp)
    obtain ⟨y, ys, hys⟩ := List.exists_cons_of_ne_nil hne
    rw [moveChains]
    rw [hys] at ih ⊢
    rw [List.getLast?_cons_cons]
    exact ih

/-- C1, amended: on an unpaused physics frame with at least one chain and
no active reverse timer, the chain that receives the forward base
velocity `0.6 × speedMultiplier × rampFactor × timeScale` is the LAST
chain of the partition of the descending-sorted store — the chain
farthest from the core — not chain 0; every marble of that chain gets
`speed = baseSpeed`. -/
theorem C1_base_speed_last_chain (p : PhysParams) (ms : List Marble) (c : List Marble)
    (hrev : p.reverseTimer = 0) (hlast : (partitionChains ms).getLast? = some c) :
    (moveChains p (partitionChains ms)).getLast? = some (applyChainVelocity c (baseSpeed p)) ∧
    ∀ m ∈ applyChainVelocity c (baseSpeed p), m.speed = baseSpeed p := by
  refine ⟨moveChains_getLast? p hrev (partitionChains ms) c hlast, ?_⟩
  intro m hm
  simp only [applyChainVelocity, List.mem_map] at hm
  obtain ⟨m0, _, rfl⟩ := hm
  rfl

/-- Witness for C1 at a one-marble store, where the single chain is both
chain 0 and the last chain and does receive the base speed. -/
theorem C1_witness :
    (moveChains ⟨1, 1, 0, 0, 0⟩
        (partitionChains [⟨0, 0, MarbleType.NORMAL, 50, 0, false⟩])).getLast? =
      some (applyChainVelocity [⟨0, 0, MarbleType.NORMAL, 50, 0, false⟩]
        (baseSpeed ⟨1, 1, 0, 0, 0⟩)) :=
  (C1_base_speed_last_chain ⟨1, 1, 0, 0, 0⟩ [⟨0, 0, MarbleType.NORMAL, 50, 0, false⟩]
    [⟨0, 0, MarbleType.NORMAL, 50, 0, false⟩] rfl
    (by simp [partitionChains, partitionAux])).1

/-- Physics parameters of the C1 counterexample frame: level speed
multiplier 1, no upgrades, frame 0, no active powerup timers. -/
def pC1 : PhysParams := ⟨1, 1, 0, 0, 0⟩

/-- Sorted store of the C1 counterexample: two differently-colored
marbles far apart, hence two chains. -/
def msC1 : List Marble :=
  [⟨0, 0, MarbleType.NORMAL, 100, 0, false⟩, ⟨1, 1, MarbleType.NORMAL, 0, 0, false⟩]

/-- C1, counterexample: with two chains and no reverse timer, chain 0
(nearest the core) does NOT receive the base velocity: its marble ends
the frame with speed 0 while the base speed is 3/5. -/
theorem C1_chain0_cex :
    pC1.reverseTimer = 0 ∧
    (partitionChains msC1).length = 2 ∧
    (((moveChains pC1 (partitionChains msC1)).headD []).headD default).speed = 0 ∧
    baseSpeed pC1 = 3/5 ∧
    (((moveChains pC1 (partitionChains msC1)).headD []).headD default).speed ≠ baseSpeed pC1 := by
  norm_num [msC1, pC1, partitionChains, partitionAux, moveChains, applyChainVelocity,
    baseSpeed, rampFactor, timeScale, forcedReverseSpeed, reverseSpeedMax, MARBLE_RADIUS]
  refine ⟨by decide, ?_⟩
  rw [if_neg (by decide)]
  norm_num

/-! ## Overlap-resolution claims (C2) -/

/-- The overlap pass sends a non-empty store to a non-empty store. -/
theorem resolveOverlaps_ne_nil : ∀ l : List Marble, l ≠ [] → resolveOverlaps l ≠ []
  | [], h => absurd rfl h
  | [m], _ => by simp [resolveOverlaps]
  | m :: n :: rest, _ => by
    rw [resolveOverlaps]
    cases hh : (resolveOverlaps (n :: rest)).head? with
    | none => simp
    | some b =>
      dsimp only
      split_ifs <;> simp

/-- One step of the overlap pass: the head marble is resolved against the
already-resolved tail, which is kept as is. -/
theorem resolveOverlaps_cons_cons (m n : Marble) (rest : List Marble) :
    ∃ y, resolveOverlaps (m :: n :: rest) = y :: resolveOverlaps (n :: rest) := by
  rw [resolveOverlaps]
  obtain ⟨b, ys, hb⟩ :=
    List.exists_cons_of_ne_nil (resolveOverlaps_ne_nil (n :: rest) (by simp))
  rw [hb]
  dsimp only [List.head?]
  by_cases hlt : m.offset - b.offset < MARBLE_RADIUS * 2
  · exact ⟨_, by rw [if_pos hlt]⟩
  · exact ⟨m, by rw [if_neg hlt]⟩

/-- After the overlap pass, every adjacent pair of the store satisfies the
exact minimum separation `2 · MARBLE_RADIUS`. -/
theorem resolveOverlaps_chain' : ∀ l : List Marble,
    List.Chain' (fun a b => b.offset + MARBLE_RADIUS * 2 ≤ a.offset) (resolveOverlaps l)
  | [] => by simp [resolveOverlaps]
  | [m] => by simp [resolveOverlaps]
  | m :: n :: rest => by
    have ih := resolveOverlaps_chain' (n :: rest)
    obtain ⟨b, ys, hb⟩ :=
      List.exists_cons_of_ne_nil (resolveOverlaps_ne_nil (n :: rest) (by simp))
    rw [resolveOverlaps, hb]
    dsimp only [List.head?]
    by_cases hlt : m.offset - b.offset < MARBLE_RADIUS * 2
    · rw [if_pos hlt, List.chain'_cons]
      exact ⟨le_refl _, hb ▸ ih⟩
    · rw [if_neg hlt, List.chain'_cons]
      push_neg at hlt
      exact ⟨by linarith, hb ▸ ih⟩

/-- The overlap pass resolves a suffix independently of the marbles in
front of it: dropping the first `l₁.length` resolved marbles of
`l₁ ++ s` leaves exactly the resolution of `s`. -/
theorem resolveOverlaps_suffix : ∀ (l₁ s : List Marble), s ≠ [] →
    (resolveOverlaps (l₁ ++ s)).drop l₁.length = resolveOverlaps s
  | [], s, _ => by simp
  | x :: l₁, s, hs => by
    have ih := resolveOverlaps_suffix l₁ s hs
    obtain ⟨z, zz, hz⟩ := List.exists_cons_of_ne_nil (show l₁ ++ s ≠ [] by simp [hs])
    have hcc : ∃ y, resolveOverlaps (x :: (l₁ ++ s)) =
        y :: resolveOverlaps (l₁ ++ s) := by
      rw [hz]
      exact resolveOverlaps_cons_cons x z zz
    obtain ⟨y, hy⟩ := hcc
    show (resolveOverlaps (x :: (l₁ ++ s))).drop (l₁.length + 1) = resolveOverlaps s
    rw [hy, List.drop_succ_cons, ih]

/-- C2, amended: after the overlap-resolution pass every adjacent pair of
the descending-sorted store satisfies
`offset[i] - offset[i+1] ≥ 2 · MARBLE_RADIUS` exactly (so the claimed
`≥ 2 · MARBLE_RADIUS - ε` holds for every `ε ≥ 0`); and whenever a pair
violates the minimum separation during the pass, it is the
NEARER-to-core marble (the larger offset) that is snapped, to exactly the
farther marble's already-resolved offset plus `2 · MARBLE_RADIUS`. -/
theorem C2_overlap_resolution (l : List Marble) :
    List.Chain' (fun a b => b.offset + MARBLE_RADIUS * 2 ≤ a.offset) (resolveOverlaps l) ∧
    ∀ (l₁ : List Marble) (m b : Marble) (rest : List Marble),
      l = l₁ ++ m :: rest →
      (resolveOverlaps rest).head? = some b →
      m.offset - b.offset < MARBLE_RADIUS * 2 →
      ((resolveOverlaps l)[l₁.length]?.getD default).offset =
        b.offset + MARBLE_RADIUS * 2 := by
  refine ⟨resolveOverlaps_chain' l, ?_⟩
  intro l₁ m b rest hl hhead hviol
  subst hl
  cases rest with
  | nil => simp [resolveOverlaps] at hhead
  | cons n rs =>
    have hres : resolveOverlaps (m :: n :: rs) =
        { m with offset := b.offset + MARBLE_RADIUS * 2,
                 speed := if m.speed < b.speed then b.speed else m.speed } ::
          resolveOverlaps (n :: rs) := by
      rw [resolveOverlaps, hhead]
      dsimp only
      rw [if_pos hviol]
    have hdrop := resolveOverlaps_suffix l₁ (m :: n :: rs) (by simp)
    have h0 : (resolveOverlaps (l₁ ++ m :: n :: rs))[l₁.length]? =
        ((resolveOverlaps (l₁ ++ m :: n :: rs)).drop l₁.length)[0]? := by
      rw [List.getElem?_drop, Nat.add_zero]
    rw [h0, hdrop, hres]
    simp

/-- Witness for C2: on the store `[offset 30, offset 10]` the pass leaves
every adjacent pair separated by at least `2 · MARBLE_RADIUS`, and the
violating head pair ends with the nearer-to-core marble at exactly
`10 + 2 · MARBLE_RADIUS = 36`. -/
theorem C2_witness :
    List.Chain' (fun a b => b.offset + MARBLE_RADIUS * 2 ≤ a.offset)
      (resolveOverlaps [⟨0, 0, MarbleType.NORMAL, 30, 0, false⟩,
        ⟨1, 0, MarbleType.NORMAL, 10, 0, false⟩]) ∧
    ((resolveOverlaps [⟨0, 0, MarbleType.NORMAL, 30, 0, false⟩,
        ⟨1, 0, MarbleType.NORMAL, 10, 0, false⟩])[0]?.getD default).offset =
      (10 : ℚ) + MARBLE_RADIUS * 2 := by
  refine ⟨(C2_overlap_resolution _).1, ?_⟩
  exact (C2_overlap_resolution _).2 [] ⟨0, 0, MarbleType.NORMAL, 30, 0, false⟩
    ⟨1, 0, MarbleType.NORMAL, 10, 0, false⟩ [⟨1, 0, MarbleType.NORMAL, 10, 0, false⟩]
    rfl rfl (by norm_num [MARBLE_RADIUS])

/-- C2, counterexample: on the violating pair `[offset 30, offset 10]`
the pass does not touch the farther-from-core marble (it stays at offset
10, instead of being snapped to `nearerOffset + 2 · MARBLE_RADIUS`); the
nearer marble is the one snapped, to 36. -/
theorem C2_snap_direction_cex :
    resolveOverlaps [⟨0, 0, MarbleType.NORMAL, 30, 0, false⟩,
        ⟨1, 0, MarbleType.NORMAL, 10, 0, false⟩] =
      [⟨0, 0, MarbleType.NORMAL, 36, 0, false⟩, ⟨1, 0, MarbleType.NORMAL, 10, 0, false⟩] ∧
    (30 : ℚ) - 10 < MARBLE_RADIUS * 2 ∧
    (10 : ℚ) ≠ 30 + MARBLE_RADIUS * 2 ∧
    (10 : ℚ) ≠ 36 + MARBLE_RADIUS * 2 := by
  refine ⟨?_, by norm_num [MARBLE_RADIUS], by norm_num [MARBLE_RADIUS],
    by norm_num [MARBLE_RADIUS]⟩
  norm_num [resolveOverlaps, MARBLE_RADIUS]

/-! ## Match-resolution claims (C3) -/

/-- Engine configuration of the C3 scenarios: a straight horizontal path
of length 1000 and no upgrade multipliers. -/
def cfgC3 : EngineConfig := ⟨[⟨0, 0⟩, ⟨1000, 0⟩], 1000, 1, 1⟩

/-- The sorted store `[A, A, B, B, B, C]` of the C3 scenario, with
colors `A = 0`, `B = 1`, `C = 2`, all NORMAL, marbles touching. -/
def msC3 : List Marble :=
  [⟨0, 0, MarbleType.NORMAL, 156, 0, false⟩, ⟨1, 0, MarbleType.NORMAL, 130, 0, false⟩,
   ⟨2, 1, MarbleType.NORMAL, 104, 0, false⟩, ⟨3, 1, MarbleType.NORMAL, 78, 0, false⟩,
   ⟨4, 1, MarbleType.NORMAL, 52, 0, false⟩, ⟨5, 2, MarbleType.NORMAL, 26, 0, false⟩]

/-- Engine state of the C3 scenario. -/
def stC3 : EngineState := ⟨msC3, 0, 0, 0⟩

/-- C3, amended: on the store `[A, A, B, B, B, C]` with the pivot at the
first `B` (index 2), `handleMatches` reports success and removes exactly
the three `B` marbles; and for any in-range pivot that is not a BOMB
whose maximal contiguous matching run is shorter than 3, `handleMatches`
reports failure and changes nothing. -/
theorem C3_match_run_semantics :
    ((handleMatches cfgC3 stC3 2 false).2 = true ∧
      (handleMatches cfgC3 stC3 2 false).1.marbles =
        [⟨0, 0, MarbleType.NORMAL, 156, 0, false⟩, ⟨1, 0, MarbleType.NORMAL, 130, 0, false⟩,
         ⟨5, 2, MarbleType.NORMAL, 26, 0, false⟩]) ∧
    ∀ (cfg : EngineConfig) (st : EngineState) (idx : ℤ) (isCombo : Bool),
      0 ≤ idx → idx < (st.marbles.length : ℤ) →
      (st.marbles.getD idx.toNat default).type ≠ MarbleType.BOMB →
      matchRun st.marbles idx.toNat < 3 →
      handleMatches cfg st idx isCombo = (st, false) := by
  constructor
  · constructor
    · norm_num [handleMatches, cfgC3, stC3, msC3, expandLeft, expandRight, expandRightGo,
        isMatchWith, explodeBomb, explodeArea, getPointAtDistance, MARBLE_RADIUS,
        CREDITS_PER_MARBLE, List.range', List.find?]
      decide
    · norm_num [handleMatches, cfgC3, stC3, msC3, expandLeft, expandRight, expandRightGo,
        isMatchWith, explodeBomb, explodeArea, getPointAtDistance, MARBLE_RADIUS,
        CREDITS_PER_MARBLE, List.range', List.find?]
      decide
  · intro cfg st idx isCombo h0 hlen htype hrun
    rw [handleMatches]
    rw [if_neg (by push_neg; exact ⟨h0, hlen⟩)]
    rw [if_neg (by simpa using htype)]
    rw [if_neg (by simp only [matchRun] at hrun; omega)]

/-- Witness for C3 at a concrete in-range non-BOMB pivot with a run of
length 1: failure is reported and the state is returned unchanged. -/
theorem C3_witness :
    handleMatches cfgC3
      ⟨[⟨0, 0, MarbleType.NORMAL, 60, 0, false⟩, ⟨1, 1, MarbleType.NORMAL, 30, 0, false⟩],
        5, 5, 2⟩ 0 true =
      (⟨[⟨0, 0, MarbleType.NORMAL, 60, 0, false⟩, ⟨1, 1, MarbleType.NORMAL, 30, 0, false⟩],
        5, 5, 2⟩, false) :=
  C3_match_run_semantics.2 cfgC3 _ 0 true (by norm_num) (by norm_num) (by decide) (by decide)

/-- The C3 counterexample store: a NORMAL marble in front of a BOMB, the
pivot being the BOMB at index 1. -/
def stBombC3 : EngineState :=
  ⟨[⟨0, 0, MarbleType.NORMAL, 60, 0, false⟩, ⟨1, 1, MarbleType.BOMB, 30, 0, false⟩], 0, 0, 0⟩

/-- Engine configuration of the C3 counterexample: a straight path of
length 100. -/
def cfgBombC3 : EngineConfig := ⟨[⟨0, 0⟩, ⟨100, 0⟩], 100, 1, 1⟩

/-- C3, counterexample: a BOMB pivot whose maximal contiguous matching
run has length 1 < 3 nevertheless reports success, and the store is not
left unchanged — the bomb explodes and empties it. -/
theorem C3_bomb_pivot_cex :
    matchRun stBombC3.marbles 1 < 3 ∧
    (stBombC3.marbles.getD 1 default).type = MarbleType.BOMB ∧
    (handleMatches cfgBombC3 stBombC3 1 false).2 = true ∧
    (handleMatches cfgBombC3 stBombC3 1 false).1.marbles = [] := by
  refine ⟨by decide, by decide, ?_, ?_⟩
  · norm_num [handleMatches, cfgBombC3, stBombC3]
  · norm_num [handleMatches, cfgBombC3, stBombC3, explodeBomb, explodeArea,
      getPointAtDistance, MARBLE_RADIUS]

/-! ## Combo-streak claims (C9) -/

/-- The match engine never modifies the combo-streak cell: it is written
only by the projectile and miss logic of `animate`. -/
theorem handleMatches_comboStreak (cfg : EngineConfig) (st : EngineState) (idx : ℤ)
    (isCombo : Bool) : (handleMatches cfg st idx isCombo).1.comboStreak = st.comboStreak := by
  rw [handleMatches]
  dsimp only
  split_ifs <;> try rfl
  all_goals split <;> rfl

/-- C9: in a projectile CCD sub-step, leaving the play area resets the
combo streak to 0 in that same frame, and a direct (non-EMP) hit on a
non-BOMB marble whose match resolution succeeds increments the combo
streak by exactly 1. -/
theorem C9_combo_streak (cfg : EngineConfig) (lw lh : ℚ) (st : EngineState) (p : Projectile)
    (sVx sVy : ℚ) (newId : Nat) :
    (projOutOfBounds (p.x + sVx) (p.y + sVy) lw lh = true →
      (projectileSubStep cfg lw lh st p sVx sVy newId).1.comboStreak = 0) ∧
    (∀ mIdx : Nat,
      projOutOfBounds (p.x + sVx) (p.y + sVy) lw lh = false →
      findHitIdx cfg st.marbles (p.x + sVx) (p.y + sVy) = some mIdx →
      (st.marbles.getD mIdx default).type ≠ MarbleType.BOMB →
      p.isEmp = false →
      (handleMatches cfg
          { st with marbles := (insertAndPush st.marbles mIdx
              (shotMarble newId p.color ((st.marbles.getD mIdx default).offset))) }
          ((mIdx : ℤ) + 1) false).2 = true →
      (projectileSubStep cfg lw lh st p sVx sVy newId).1.comboStreak =
        st.comboStreak + 1) := by
  constructor
  · intro hoob
    rw [projectileSubStep]
    rw [if_pos hoob]
  · intro mIdx hoob hfind htype hemp hmatch
    rw [projectileSubStep]
    rw [if_neg (by simp [hoob])]
    rw [hfind]
    dsimp only
    rw [if_neg (by simpa using htype), if_neg (by simp [hemp]), if_pos hmatch]
    dsimp only
    rw [handleMatches_comboStreak]

/-- Engine configuration of the C9 witness: a straight path of length
100, no upgrade multipliers. -/
def cfgC9 : EngineConfig := ⟨[⟨0, 0⟩, ⟨100, 0⟩], 100, 1, 1⟩

/-- Engine state of the C9 witness: two touching-color marbles of color 5
and a zero combo streak. -/
def stC9 : EngineState :=
  ⟨[⟨0, 5, MarbleType.NORMAL, 60, 0, false⟩, ⟨1, 5, MarbleType.NORMAL, 30, 0, false⟩],
    0, 0, 0⟩

/-- Witness for C9: an out-of-bounds sub-step resets the streak to 0, and
a concrete direct hit completing a 3-run of color 5 raises the streak
from 0 to 1. -/
theorem C9_witness :
    (projectileSubStep cfgC9 200 200 stC9 ⟨-300, 0, 10, 0, 5, false⟩ 1 0 99).1.comboStreak = 0 ∧
    (projectileSubStep cfgC9 200 200 stC9 ⟨58, 0, 10, 0, 5, false⟩ 1 0 99).1.comboStreak =
      stC9.comboStreak + 1 := by
  constructor
  · exact (C9_combo_streak cfgC9 200 200 stC9 ⟨-300, 0, 10, 0, 5, false⟩ 1 0 99).1
      (by norm_num [projOutOfBounds])
  · exact (C9_combo_streak cfgC9 200 200 stC9 ⟨58, 0, 10, 0, 5, false⟩ 1 0 99).2 0
      (by norm_num [projOutOfBounds])
      (by norm_num [findHitIdx, cfgC9, stC9, List.findIdx?, getPointAtDistance, hitDistSq,
        MARBLE_RADIUS])
      (by decide)
      rfl
      (by norm_num [handleMatches, cfgC9, stC9, insertAndPush, pushLoop, shotMarble,
          expandLeft, expandRight, expandRightGo, isMatchWith, MARBLE_RADIUS,
          CREDITS_PER_MARBLE, List.range', List.find?]
          decide)

/-! ## Path-generation guard claim (C8) -/

/-- With a zero target step and a target already inside the current
segment, the resampling `while` loop never exits, for any amount of
fuel: this is the `totalLength == 0` situation, in which
`targetD <= accumulatedDist + len` stays true forever. -/
theorem resampleSegment_stuck (p1 p2 : Point) (len : ℚ) :
    ∀ (fuel : Nat) (accDist targetD : ℚ) (acc : List Point),
      targetD ≤ accDist + len →
      resampleSegment p1 p2 len 0 fuel accDist targetD acc = none
  | 0, _, _, _, _ => rfl
  | fuel + 1, accDist, targetD, acc, h => by
    rw [resampleSegment, if_pos h]
    exact resampleSegment_stuck p1 p2 len fuel accDist (targetD + 0) _ (by simpa using h)

/-- Over an all-equal raw polyline every segment length vanishes. -/
theorem segmentLengthsOf_replicate (dist : Point → Point → ℚ) (hdist : ∀ p, dist p p = 0)
    (pt : Point) : ∀ k, (segmentLengthsOf dist (List.replicate k pt)).sum = 0
  | 0 => rfl
  | 1 => rfl
  | k + 2 => by
    have ih := segmentLengthsOf_replicate dist hdist pt (k + 1)
    rw [List.replicate_succ, List.replicate_succ, segmentLengthsOf]
    rw [← List.replicate_succ]
    simp [hdist, ih]

/-- C8: the raw polyline of a degenerate viewport (every sample at the
same point, total arclength 0) makes `generatePathPoints` loop forever:
for every fuel bound the resampling loop is still running, so no
degenerate 2-point path is ever returned and the `t = 0/0` division is
reached — the guard demanded by the specification is absent from the
code. -/
theorem C8_zero_length_no_guard (dist : Point → Point → ℚ) (hdist : ∀ p, dist p p = 0)
    (pt : Point) (k fuel : Nat) :
    generatePathPointsFueled dist (List.replicate (k + 2) pt) 2000 fuel = none := by
  rw [generatePathPointsFueled.eq_def]
  rw [List.replicate_succ, List.replicate_succ]
  dsimp only
  rw [← List.replicate_succ]
  have htotal : (segmentLengthsOf dist (pt :: List.replicate (k + 1) pt)).sum = 0 := by
    have := segmentLengthsOf_replicate dist hdist pt (k + 2)
    rwa [List.replicate_succ] at this
  rw [htotal]
  rw [List.replicate_succ]
  rw [resampleLoop]
  rw [hdist pt]
  rw [zero_div]
  rw [resampleSegment_stuck pt pt 0 fuel 0 0 [pt] (by norm_num)]

/-- Witness for C8: the concrete 2001-sample degenerate polyline of the
0×0 viewport, with the zero distance function, exhausts a fuel of 5
without the resampling loop terminating. -/
theorem C8_witness :
    generatePathPointsFueled (fun _ _ => 0) (List.replicate (1999 + 2) ⟨0, 0⟩) 2000 5 =
      none :=
  C8_zero_length_no_guard (fun _ _ => 0) (fun _ => rfl) ⟨0, 0⟩ 1999 5

end NeonCircuit